import Mathlib

/-!
Shallow embedding of the simulation core of `src/engine.cpp` (a 2D
missile-defense simulation on an 800×600 field).  C++ `float` arithmetic is
idealised as exact real arithmetic (`ℝ`).  The two global vectors
`enemyTargets` / `defenseMissiles` become lists inside a `World` record.

A `std::weak_ptr<EnemyTarget>` held by a missile is modelled as an optional
target id together with a lookup (`lockTarget`) in the current target list:
in the program the only owning reference to a target is its entry in the
`enemyTargets` vector (missiles hold weak references only), so
`weak_ptr::lock()` succeeds exactly while the target is still in that vector,
and ids are unique (assigned from a monotone counter), so lookup by id is the
object identity.
-/

namespace MissileSim

noncomputable section

open Classical

/-- `SCREEN_WIDTH` constant (engine.cpp line 18). -/
def SCREEN_WIDTH : ℝ := 800

/-- `SCREEN_HEIGHT` constant (engine.cpp line 19). -/
def SCREEN_HEIGHT : ℝ := 600

/-- State of `class EnemyTarget` (engine.cpp lines 28-62): position,
velocity, lifecycle flag and the id assigned at construction. -/
structure EnemyTarget where
  x : ℝ
  y : ℝ
  speedX : ℝ
  speedY : ℝ
  isActive : Bool
  id : Nat

/-- `EnemyTarget::EnemyTarget` (engine.cpp lines 30-31): fields from the
arguments, `isActive = true` by the member initialiser, `id = nextID++`.
The static counter is threaded explicitly: the constructor returns the new
target together with the incremented counter. -/
def mkEnemyTarget (nextID : Nat) (x y speedX speedY : ℝ) : EnemyTarget × Nat :=
  ({ x := x, y := y, speedX := speedX, speedY := speedY, isActive := true, id := nextID },
   nextID + 1)

/-- `EnemyTarget::update` (engine.cpp lines 33-41): advance the position by
velocity × deltaTime, then deactivate when the new position has
`x > SCREEN_WIDTH || y < 0 || y > SCREEN_HEIGHT` (the left edge is not
tested). -/
def EnemyTarget.update (t : EnemyTarget) (deltaTime : ℝ) : EnemyTarget :=
  let x := t.x + t.speedX * deltaTime
  let y := t.y + t.speedY * deltaTime
  { t with
    x := x
    y := y
    isActive := if x > SCREEN_WIDTH ∨ y < 0 ∨ y > SCREEN_HEIGHT then false else t.isActive }

/-- State of `class DefenseMissile` (engine.cpp lines 67-124): position, the
scalar speed, the computed velocity (zero-initialised, lines 121-122), the
lifecycle flag, and the weak target reference as an optional target id. -/
structure DefenseMissile where
  x : ℝ
  y : ℝ
  speed : ℝ
  velocityX : ℝ
  velocityY : ℝ
  isActive : Bool
  target : Option Nat

/-- `std::weak_ptr<EnemyTarget>::lock()`: resolve the stored id against the
current target list (see the header comment for why this is faithful). -/
def lockTarget (targets : List EnemyTarget) : Option Nat → Option EnemyTarget
  | none => none
  | some i => targets.find? (fun t => t.id == i)

/-- `DefenseMissile::updateVelocity` (engine.cpp lines 106-117): when the
target locks, point the velocity at the target's current position with
magnitude `speed`, except that when the distance is not `> 0.01` the whole
assignment is skipped and the previous velocity is retained. -/
def DefenseMissile.updateVelocity (m : DefenseMissile) (targets : List EnemyTarget) :
    DefenseMissile :=
  match lockTarget targets m.target with
  | some sharedTarget =>
    let dx := sharedTarget.x - m.x
    let dy := sharedTarget.y - m.y
    let distance := Real.sqrt (dx * dx + dy * dy)
    if distance > 0.01 then
      { m with velocityX := dx / distance * m.speed, velocityY := dy / distance * m.speed }
    else m
  | none => m

/-- First half of `DefenseMissile::update` (engine.cpp lines 75-83): if the
target locks and is active, recompute the velocity; if it locks but is
inactive, drop the reference (`target.reset()`); otherwise change nothing. -/
def DefenseMissile.guide (m : DefenseMissile) (targets : List EnemyTarget) : DefenseMissile :=
  match lockTarget targets m.target with
  | some sharedTarget =>
    if sharedTarget.isActive then m.updateVelocity targets
    else { m with target := none }
  | none => m

/-- Second half of `DefenseMissile::update` (engine.cpp lines 85-91): advance
the position by velocity × deltaTime, then deactivate when the new position
has `x < 0 || x > SCREEN_WIDTH || y < 0 || y > SCREEN_HEIGHT`. -/
def DefenseMissile.move (m : DefenseMissile) (deltaTime : ℝ) : DefenseMissile :=
  let x := m.x + m.velocityX * deltaTime
  let y := m.y + m.velocityY * deltaTime
  { m with
    x := x
    y := y
    isActive := if x < 0 ∨ x > SCREEN_WIDTH ∨ y < 0 ∨ y > SCREEN_HEIGHT then false
                else m.isActive }

/-- `DefenseMissile::update` (engine.cpp lines 74-92): the guidance step
followed by the movement and bounds check. -/
def DefenseMissile.update (m : DefenseMissile) (deltaTime : ℝ)
    (targets : List EnemyTarget) : DefenseMissile :=
  (m.guide targets).move deltaTime

/-- `DefenseMissile::DefenseMissile` (engine.cpp lines 69-72): fields from
the arguments, velocity zero-initialised, then `updateVelocity()`.  The C++
constructor receives a `shared_ptr`; callers always pass a member of the
current target list, given here for the lock. -/
def mkDefenseMissile (x y : ℝ) (targets : List EnemyTarget) (targetId : Nat)
    (speed : ℝ) : DefenseMissile :=
  DefenseMissile.updateVelocity
    { x := x, y := y, speed := speed, velocityX := 0, velocityY := 0,
      isActive := true, target := some targetId }
    targets

/-- The two global collections (engine.cpp lines 23-24). -/
structure World where
  enemyTargets : List EnemyTarget
  defenseMissiles : List DefenseMissile

/-- `targetPtr->setInactive()` (engine.cpp line 311): the write through the
shared pointer lands on the target list entry with that id. -/
def markTarget (k : Nat) (ts : List EnemyTarget) : List EnemyTarget :=
  ts.map (fun t => if t.id = k then { t with isActive := false } else t)

/-- One step of the collision loop of `updateEntities` (engine.cpp lines
301-315): an active missile whose target locks and is active, with squared
distance `< 225`, deactivates itself and its target. -/
def collideMissile (targets : List EnemyTarget) (missile : DefenseMissile) :
    List EnemyTarget × DefenseMissile :=
  if missile.isActive = false then (targets, missile)
  else
    match lockTarget targets missile.target with
    | none => (targets, missile)
    | some targetPtr =>
      if targetPtr.isActive = false then (targets, missile)
      else
        let dx := missile.x - targetPtr.x
        let dy := missile.y - targetPtr.y
        if dx * dx + dy * dy < 225 then
          (markTarget targetPtr.id targets, { missile with isActive := false })
        else (targets, missile)

/-- The collision loop of `updateEntities` (engine.cpp lines 301-315),
iterating `collideMissile` over the missile list in order while the target
list evolves. -/
def collisionPass (targets : List EnemyTarget) :
    List DefenseMissile → List EnemyTarget × List DefenseMissile
  | [] => (targets, [])
  | missile :: rest =>
    let p := collideMissile targets missile
    let q := collisionPass p.1 rest
    (q.1, p.2 :: q.2)

/-- `updateEntities` (engine.cpp lines 287-328): update every target, update
every missile against the updated targets, run the collision pass, then
compact both collections (`erase`/`remove_if` keeps the active entries in
order). -/
def updateEntities (w : World) (deltaTime : ℝ) : World :=
  let targets1 := w.enemyTargets.map (fun t => t.update deltaTime)
  let missiles1 := w.defenseMissiles.map (fun m => m.update deltaTime targets1)
  let p := collisionPass targets1 missiles1
  { enemyTargets := p.1.filter (fun t => t.isActive),
    defenseMissiles := p.2.filter (fun m => m.isActive) }

/-- `launchMissile` (engine.cpp lines 350-354): append a new missile with the
fixed speed 200 aimed at the given target. -/
def launchMissile (w : World) (startX startY : ℝ) (targetId : Nat) : World :=
  { w with defenseMissiles :=
      w.defenseMissiles ++ [mkDefenseMissile startX startY w.enemyTargets targetId 200] }

/-- The scan of `detectionTask` (engine.cpp lines 364-374): first target in
collection order whose distance from the sensor `(SCREEN_WIDTH,
SCREEN_HEIGHT / 2)` is `<= 500`. -/
def detectedTarget : List EnemyTarget → Option EnemyTarget
  | [] => none
  | target :: rest =>
    let dx := target.x - SCREEN_WIDTH
    let dy := target.y - SCREEN_HEIGHT / 2
    if Real.sqrt (dx * dx + dy * dy) ≤ 500 then some target
    else detectedTarget rest

/-- `detectionTask` (engine.cpp lines 357-375): launch one missile from the
sensor at the first detected target and stop scanning; do nothing when no
target is in range. -/
def detectionTask (w : World) : World :=
  match detectedTarget w.enemyTargets with
  | some target => launchMissile w SCREEN_WIDTH (SCREEN_HEIGHT / 2) target.id
  | none => w

/-- The SPACE-key handler of `main` (engine.cpp lines 242-253): with no
targets nothing happens; otherwise one missile is launched from
`(SCREEN_WIDTH, SCREEN_HEIGHT / 2)` at the front target.  The boolean
records which branch ran (the spec's `launchMissileAtFirstTarget -> bool`). -/
def manualFire (w : World) : Bool × World :=
  match w.enemyTargets with
  | [] => (false, w)
  | target :: _ => (true, launchMissile w SCREEN_WIDTH (SCREEN_HEIGHT / 2) target.id)

/-- A run of spawns (the spawn block of `main`, engine.cpp lines 212-221):
each creation draws its parameters (position and speed) from the given list
and the id from the threaded `nextID` counter. -/
def spawnAll (nextID : Nat) : List (ℝ × ℝ × ℝ × ℝ) → List EnemyTarget
  | [] => []
  | p :: ps =>
    let c := mkEnemyTarget nextID p.1 p.2.1 p.2.2.1 p.2.2.2
    c.1 :: spawnAll c.2 ps

/-- A missile's view of a lost target (engine.cpp lines 75-83): the weak
reference no longer locks, or it locks a deactivated target. -/
def refLost (targets : List EnemyTarget) (ref : Option Nat) : Prop :=
  match lockTarget targets ref with
  | none => True
  | some t => t.isActive = false

/-- A missile updated over successive ticks, one target-list snapshot per
tick (`DefenseMissile::update` is the only code that changes a missile
between ticks). -/
def DefenseMissile.updateSeq (m : DefenseMissile) (dt : ℝ) :
    List (List EnemyTarget) → DefenseMissile
  | [] => m
  | ts :: rest => (m.update dt ts).updateSeq dt rest

/-! ### Projection lemmas for the entity operations -/

theorem EnemyTarget.update_x (t : EnemyTarget) (dt : ℝ) :
    (t.update dt).x = t.x + t.speedX * dt := rfl

theorem EnemyTarget.update_y (t : EnemyTarget) (dt : ℝ) :
    (t.update dt).y = t.y + t.speedY * dt := rfl

theorem EnemyTarget.update_id (t : EnemyTarget) (dt : ℝ) :
    (t.update dt).id = t.id := rfl

theorem EnemyTarget.update_isActive (t : EnemyTarget) (dt : ℝ) :
    (t.update dt).isActive =
      if t.x + t.speedX * dt > SCREEN_WIDTH ∨ t.y + t.speedY * dt < 0 ∨
          t.y + t.speedY * dt > SCREEN_HEIGHT then false
      else t.isActive := rfl

theorem DefenseMissile.updateVelocity_x (m : DefenseMissile) (ts : List EnemyTarget) :
    (m.updateVelocity ts).x = m.x := by
  unfold updateVelocity
  cases lockTarget ts m.target
  · rfl
  · simp [apply_ite DefenseMissile.x]

theorem DefenseMissile.updateVelocity_y (m : DefenseMissile) (ts : List EnemyTarget) :
    (m.updateVelocity ts).y = m.y := by
  unfold updateVelocity
  cases lockTarget ts m.target
  · rfl
  · simp [apply_ite DefenseMissile.y]

theorem DefenseMissile.updateVelocity_isActive (m : DefenseMissile) (ts : List EnemyTarget) :
    (m.updateVelocity ts).isActive = m.isActive := by
  unfold updateVelocity
  cases lockTarget ts m.target
  · rfl
  · simp [apply_ite DefenseMissile.isActive]

theorem DefenseMissile.updateVelocity_target (m : DefenseMissile) (ts : List EnemyTarget) :
    (m.updateVelocity ts).target = m.target := by
  unfold updateVelocity
  cases lockTarget ts m.target
  · rfl
  · simp [apply_ite DefenseMissile.target]

theorem DefenseMissile.updateVelocity_speed (m : DefenseMissile) (ts : List EnemyTarget) :
    (m.updateVelocity ts).speed = m.speed := by
  unfold updateVelocity
  cases lockTarget ts m.target
  · rfl
  · simp [apply_ite DefenseMissile.speed]

theorem DefenseMissile.guide_of_none (m : DefenseMissile) (ts : List EnemyTarget)
    (h : lockTarget ts m.target = none) : m.guide ts = m := by
  unfold guide
  rw [h]

theorem DefenseMissile.guide_of_inactive (m : DefenseMissile) (ts : List EnemyTarget)
    (t : EnemyTarget) (h : lockTarget ts m.target = some t) (ht : t.isActive = false) :
    m.guide ts = { m with target := none } := by
  unfold guide
  rw [h]
  simp [ht]

theorem DefenseMissile.guide_of_active (m : DefenseMissile) (ts : List EnemyTarget)
    (t : EnemyTarget) (h : lockTarget ts m.target = some t) (ht : t.isActive = true) :
    m.guide ts = m.updateVelocity ts := by
  unfold guide
  rw [h]
  simp [ht]

theorem DefenseMissile.guide_x (m : DefenseMissile) (ts : List EnemyTarget) :
    (m.guide ts).x = m.x := by
  unfold guide
  cases lockTarget ts m.target
  · rfl
  · simp [apply_ite DefenseMissile.x, m.updateVelocity_x ts]

theorem DefenseMissile.guide_y (m : DefenseMissile) (ts : List EnemyTarget) :
    (m.guide ts).y = m.y := by
  unfold guide
  cases lockTarget ts m.target
  · rfl
  · simp [apply_ite DefenseMissile.y, m.updateVelocity_y ts]

theorem DefenseMissile.guide_isActive (m : DefenseMissile) (ts : List EnemyTarget) :
    (m.guide ts).isActive = m.isActive := by
  unfold guide
  cases lockTarget ts m.target
  · rfl
  · simp [apply_ite DefenseMissile.isActive, m.updateVelocity_isActive ts]

theorem DefenseMissile.guide_speed (m : DefenseMissile) (ts : List EnemyTarget) :
    (m.guide ts).speed = m.speed := by
  unfold guide
  cases lockTarget ts m.target
  · rfl
  · simp [apply_ite DefenseMissile.speed, m.updateVelocity_speed ts]

theorem DefenseMissile.move_x (m : DefenseMissile) (dt : ℝ) :
    (m.move dt).x = m.x + m.velocityX * dt := rfl

theorem DefenseMissile.move_y (m : DefenseMissile) (dt : ℝ) :
    (m.move dt).y = m.y + m.velocityY * dt := rfl

theorem DefenseMissile.move_velocityX (m : DefenseMissile) (dt : ℝ) :
    (m.move dt).velocityX = m.velocityX := rfl

theorem DefenseMissile.move_velocityY (m : DefenseMissile) (dt : ℝ) :
    (m.move dt).velocityY = m.velocityY := rfl

theorem DefenseMissile.move_target (m : DefenseMissile) (dt : ℝ) :
    (m.move dt).target = m.target := rfl

theorem DefenseMissile.move_speed (m : DefenseMissile) (dt : ℝ) :
    (m.move dt).speed = m.speed := rfl

theorem DefenseMissile.move_isActive (m : DefenseMissile) (dt : ℝ) :
    (m.move dt).isActive =
      if m.x + m.velocityX * dt < 0 ∨ m.x + m.velocityX * dt > SCREEN_WIDTH ∨
          m.y + m.velocityY * dt < 0 ∨ m.y + m.velocityY * dt > SCREEN_HEIGHT then false
      else m.isActive := rfl

/-! ### Concrete entities used by the witnesses -/

/-- A stationary active target sitting at (100, 100). -/
def tStill : EnemyTarget :=
  { x := 100, y := 100, speedX := 0, speedY := 0, isActive := true, id := 0 }

/-- A missile sitting exactly on `tStill`, with a leftover velocity (1, 2). -/
def mAtTarget : DefenseMissile :=
  { x := 100, y := 100, speed := 200, velocityX := 1, velocityY := 2,
    isActive := true, target := some 0 }

/-- An active target entering at the left edge moving right at 50 units/s. -/
def tCross : EnemyTarget :=
  { x := 0, y := 300, speedX := 50, speedY := 0, isActive := true, id := 1 }

/-- An untargeted missile flying left fast enough to exit the field. -/
def mLeft : DefenseMissile :=
  { x := 100, y := 100, speed := 200, velocityX := -200, velocityY := 0,
    isActive := true, target := none }

/-! ### The claims -/

/-- Claim C5: in `DefenseMissile::updateVelocity`, when the magnitude of the
direction vector from missile to target is at or below 0.01 the velocity
update is skipped for that tick (the prior state, hence the prior velocity,
is retained) and no division by zero is performed; the division by the
distance happens exactly when the distance exceeds 0.01, and then the
divisor is nonzero. -/
theorem updateVelocity_guard (m : DefenseMissile) (ts : List EnemyTarget) (t : EnemyTarget)
    (h : lockTarget ts m.target = some t) :
    (Real.sqrt ((t.x - m.x) * (t.x - m.x) + (t.y - m.y) * (t.y - m.y)) ≤ 0.01 →
      m.updateVelocity ts = m) ∧
    (0.01 < Real.sqrt ((t.x - m.x) * (t.x - m.x) + (t.y - m.y) * (t.y - m.y)) →
      Real.sqrt ((t.x - m.x) * (t.x - m.x) + (t.y - m.y) * (t.y - m.y)) ≠ 0 ∧
      (m.updateVelocity ts).velocityX =
        (t.x - m.x) / Real.sqrt ((t.x - m.x) * (t.x - m.x) + (t.y - m.y) * (t.y - m.y)) *
          m.speed ∧
      (m.updateVelocity ts).velocityY =
        (t.y - m.y) / Real.sqrt ((t.x - m.x) * (t.x - m.x) + (t.y - m.y) * (t.y - m.y)) *
          m.speed) := by
  unfold DefenseMissile.updateVelocity
  rw [h]
  constructor
  · intro hle
    dsimp only
    split_ifs with hc
    · exact absurd hc (not_lt.mpr hle)
    · rfl
  · intro hgt
    dsimp only
    split_ifs with hc
    · exact ⟨(lt_trans (by norm_num) hgt).ne', rfl, rfl⟩
    · exact absurd hgt hc

/-- Witness for C5: a missile exactly on its target (distance 0 ≤ 0.01)
keeps its whole state, in particular its previous velocity (1, 2). -/
theorem updateVelocity_guard_w :
    DefenseMissile.updateVelocity mAtTarget [tStill] = mAtTarget ∧
    (DefenseMissile.updateVelocity mAtTarget [tStill]).velocityX = 1 := by
  have he := (updateVelocity_guard mAtTarget [tStill] tStill rfl).1
    (by norm_num [tStill, mAtTarget, Real.sqrt_zero])
  exact ⟨he, by rw [he]; rfl⟩

/-- Claim C6: `EnemyTarget::update` advances the position by velocity × dt
and deactivates the target exactly when the new position has
`x > SCREEN_WIDTH`, `y < 0` or `y > SCREEN_HEIGHT`; the left edge is not
checked, so a position with `x < 0` that breaks none of those three bounds
leaves the target active. -/
theorem target_update_bounds (t : EnemyTarget) (dt : ℝ) (h : t.isActive = true) :
    (t.update dt).x = t.x + t.speedX * dt ∧
    (t.update dt).y = t.y + t.speedY * dt ∧
    ((t.update dt).isActive = false ↔
      ((t.update dt).x > SCREEN_WIDTH ∨ (t.update dt).y < 0 ∨
        (t.update dt).y > SCREEN_HEIGHT)) ∧
    (((t.update dt).x < 0 ∧
        ¬((t.update dt).x > SCREEN_WIDTH ∨ (t.update dt).y < 0 ∨
          (t.update dt).y > SCREEN_HEIGHT)) →
      (t.update dt).isActive = true) := by
  refine ⟨rfl, rfl, ?_, ?_⟩
  · rw [EnemyTarget.update_isActive, EnemyTarget.update_x, EnemyTarget.update_y, h]
    split_ifs with hc
    · simp [hc]
    · simp [hc]
  · intro hx
    rw [EnemyTarget.update_x, EnemyTarget.update_y] at hx
    rw [EnemyTarget.update_isActive, h, if_neg hx.2]

/-- Witness for C6: the target at (0, 300) moving right at 50 units/s is at
(50, 300) and still active after one 1-second update. -/
theorem target_update_bounds_w :
    tCross.isActive = true ∧ (tCross.update 1).x = 50 ∧
    (tCross.update 1).isActive = true := by
  have h := target_update_bounds tCross 1 rfl
  refine ⟨rfl, ?_, ?_⟩
  · rw [h.1]
    norm_num [tCross]
  · rw [EnemyTarget.update_isActive]
    norm_num [tCross, SCREEN_WIDTH, SCREEN_HEIGHT]

/-- An active missile's update deactivates it exactly when the resulting
position is outside the field (any of the four edges). -/
theorem DefenseMissile.update_bounds_iff (m : DefenseMissile) (ts : List EnemyTarget)
    (dt : ℝ) (h : m.isActive = true) :
    ((m.update dt ts).isActive = false ↔
      ((m.update dt ts).x < 0 ∨ (m.update dt ts).x > SCREEN_WIDTH ∨
        (m.update dt ts).y < 0 ∨ (m.update dt ts).y > SCREEN_HEIGHT)) := by
  unfold DefenseMissile.update
  rw [DefenseMissile.move_isActive, DefenseMissile.move_x, DefenseMissile.move_y,
    DefenseMissile.guide_isActive, h]
  split_ifs with hc
  · simp [hc]
  · simp [hc]

/-- Claim C7: `DefenseMissile::update` deactivates the missile exactly when
its resulting position leaves the field on any of the four edges, the left
edge (`x < 0`) included. -/
theorem missile_update_bounds (m : DefenseMissile) (ts : List EnemyTarget) (dt : ℝ)
    (h : m.isActive = true) :
    ((m.update dt ts).isActive = false ↔
      ((m.update dt ts).x < 0 ∨ (m.update dt ts).x > SCREEN_WIDTH ∨
        (m.update dt ts).y < 0 ∨ (m.update dt ts).y > SCREEN_HEIGHT)) :=
  m.update_bounds_iff ts dt h

/-- Witness for C7: the untargeted missile at (100, 100) flying left at 200
units/s ends one update at x = -100 < 0 and is deactivated (left edge). -/
theorem missile_update_bounds_w :
    (mLeft.update 1 []).x = -100 ∧ (mLeft.update 1 []).isActive = false := by
  have hg : mLeft.guide [] = mLeft := DefenseMissile.guide_of_none mLeft [] rfl
  have hx : (mLeft.update 1 []).x = -100 := by
    show ((mLeft.guide []).move 1).x = -100
    rw [hg, DefenseMissile.move_x]
    norm_num [mLeft]
  exact ⟨hx, (missile_update_bounds mLeft [] 1 rfl).mpr (Or.inl (by rw [hx]; norm_num))⟩

/-- Every target of a spawn run has an id at least the starting counter. -/
theorem spawnAll_id_ge (ps : List (ℝ × ℝ × ℝ × ℝ)) :
    ∀ n, ∀ t ∈ spawnAll n ps, n ≤ t.id := by
  induction ps with
  | nil => intro n t ht; simp [spawnAll] at ht
  | cons p ps ih =>
    intro n t ht
    simp only [spawnAll, List.mem_cons] at ht
    rcases ht with rfl | hm
    · exact Nat.le_refl n
    · exact Nat.le_of_succ_le (ih (n + 1) t hm)

/-- Claim C8: across one run, the ids assigned at target creation are
strictly increasing in creation order and never repeat. -/
theorem spawn_ids_strictly_increasing (n : Nat) (ps : List (ℝ × ℝ × ℝ × ℝ)) :
    List.Pairwise (· < ·) ((spawnAll n ps).map EnemyTarget.id) ∧
    ((spawnAll n ps).map EnemyTarget.id).Nodup := by
  have hp : ∀ n, List.Pairwise (fun a b : EnemyTarget => a.id < b.id) (spawnAll n ps) := by
    induction ps with
    | nil => intro n; simp [spawnAll]
    | cons p ps ih =>
      intro n
      rw [spawnAll]
      exact List.Pairwise.cons (fun b hb => spawnAll_id_ge ps (n + 1) b hb) (ih (n + 1))
  constructor
  · exact List.pairwise_map.mpr (hp n)
  · exact (List.pairwise_map.mpr (hp n)).imp (fun h => Nat.ne_of_lt h)

/-- Claim C9: the SPACE-key manual fire is a silent no-op on an empty target
collection (no state change, `false` reported); on a non-empty collection it
appends exactly one missile launched from `(SCREEN_WIDTH, SCREEN_HEIGHT / 2)`
at speed 200 toward the first target of the collection. -/
theorem manualFire_spec (w : World) :
    (w.enemyTargets = [] → manualFire w = (false, w)) ∧
    (∀ t rest, w.enemyTargets = t :: rest →
      (manualFire w).1 = true ∧
      (manualFire w).2.enemyTargets = w.enemyTargets ∧
      (manualFire w).2.defenseMissiles =
        w.defenseMissiles ++
          [mkDefenseMissile SCREEN_WIDTH (SCREEN_HEIGHT / 2) w.enemyTargets t.id 200]) := by
  constructor
  · intro h
    unfold manualFire
    rw [h]
  · intro t rest h
    simp [manualFire, h, launchMissile]

/-- A `none` reference never locks, so it always counts as lost. -/
theorem refLost_none (ts : List EnemyTarget) : refLost ts none := by
  simp [refLost, lockTarget]

/-- One update of a missile whose reference is lost: the velocity is kept,
the reference stays the same or is dropped to `none`, and the position
advances by the old velocity × dt. -/
theorem DefenseMissile.update_of_refLost (m : DefenseMissile) (ts : List EnemyTarget)
    (dt : ℝ) (h : refLost ts m.target) :
    (m.update dt ts).velocityX = m.velocityX ∧
    (m.update dt ts).velocityY = m.velocityY ∧
    ((m.update dt ts).target = m.target ∨ (m.update dt ts).target = none) ∧
    (m.update dt ts).x = m.x + m.velocityX * dt ∧
    (m.update dt ts).y = m.y + m.velocityY * dt := by
  unfold refLost at h
  cases hl : lockTarget ts m.target with
  | none =>
    have hg : m.guide ts = m := m.guide_of_none ts hl
    unfold DefenseMissile.update
    rw [hg]
    exact ⟨rfl, rfl, Or.inl rfl, rfl, rfl⟩
  | some t =>
    rw [hl] at h
    have hg : m.guide ts = { m with target := none } := m.guide_of_inactive ts t hl h
    unfold DefenseMissile.update
    rw [hg]
    exact ⟨rfl, rfl, Or.inr rfl, rfl, rfl⟩

/-- Claim C4: a missile whose target reference is lost — it no longer locks,
or the target it locks is inactive — is never re-steered by any number of
subsequent updates: the velocity stays the last computed one, the missile
never acquires a different target, and the position moves in a straight line
(old velocity × dt per tick). -/
theorem lost_target_ballistic (m : DefenseMissile) (dt : ℝ)
    (snaps : List (List EnemyTarget))
    (h : ∀ ts ∈ snaps, refLost ts m.target) :
    (m.updateSeq dt snaps).velocityX = m.velocityX ∧
    (m.updateSeq dt snaps).velocityY = m.velocityY ∧
    ((m.updateSeq dt snaps).target = m.target ∨ (m.updateSeq dt snaps).target = none) ∧
    (m.updateSeq dt snaps).x = m.x + snaps.length * (m.velocityX * dt) ∧
    (m.updateSeq dt snaps).y = m.y + snaps.length * (m.velocityY * dt) := by
  induction snaps generalizing m with
  | nil => simp [DefenseMissile.updateSeq]
  | cons ts rest ih =>
    have hts : refLost ts m.target := h ts (List.mem_cons_self ts rest)
    obtain ⟨hvx, hvy, htg, hx, hy⟩ := m.update_of_refLost ts dt hts
    have hrest : ∀ u ∈ rest, refLost u (m.update dt ts).target := by
      intro u hu
      rcases htg with he | he
      · rw [he]
        exact h u (List.mem_cons_of_mem ts hu)
      · rw [he]
        exact refLost_none u
    obtain ⟨ivx, ivy, itg, ix, iy⟩ := ih (m.update dt ts) hrest
    have hseq : m.updateSeq dt (ts :: rest) = (m.update dt ts).updateSeq dt rest := rfl
    rw [hseq, List.length_cons]
    refine ⟨ivx.trans hvx, ivy.trans hvy, ?_, ?_, ?_⟩
    · rcases itg with he | he
      · rw [he]
        exact htg
      · exact Or.inr he
    · rw [ix, hvx, hx]
      push_cast
      ring
    · rw [iy, hvy, hy]
      push_cast
      ring

/-- A dangling missile (its stored id is in no snapshot). -/
def mGhost : DefenseMissile :=
  { x := 0, y := 0, speed := 200, velocityX := 3, velocityY := 4,
    isActive := true, target := some 5 }

/-- Witness for C4: over two ticks with no matching target, `mGhost` keeps
velocity (3, 4) and moves in a straight line to (6, 8). -/
theorem lost_target_ballistic_w :
    (mGhost.updateSeq 1 [[], []]).velocityX = 3 ∧
    (mGhost.updateSeq 1 [[], []]).velocityY = 4 ∧
    (mGhost.updateSeq 1 [[], []]).x = 6 ∧
    (mGhost.updateSeq 1 [[], []]).y = 8 := by
  have h := lost_target_ballistic mGhost 1 [[], []] (by
    intro ts hts
    have hts2 : ts = [] := by simpa using hts
    rw [hts2]
    simp [refLost, lockTarget, mGhost])
  obtain ⟨h1, h2, _, h4, h5⟩ := h
  refine ⟨by rw [h1]; rfl, by rw [h2]; rfl, ?_, ?_⟩
  · rw [h4]
    norm_num [mGhost]
  · rw [h5]
    norm_num [mGhost]

/-- Marking a target inactive does not change the ids, in order. -/
theorem markTarget_ids (k : Nat) (ts : List EnemyTarget) :
    (markTarget k ts).map EnemyTarget.id = ts.map EnemyTarget.id := by
  unfold markTarget
  rw [List.map_map]
  refine List.map_congr_left ?_
  intro a _
  by_cases h : a.id = k <;> simp [h, Function.comp]

/-- After `markTarget k`, every entry with id `k` is inactive. -/
theorem markTarget_dead (k : Nat) (ts : List EnemyTarget) :
    ∀ u ∈ markTarget k ts, u.id = k → u.isActive = false := by
  intro u hu hid
  unfold markTarget at hu
  obtain ⟨v, hv, rfl⟩ := List.mem_map.mp hu
  by_cases h : v.id = k
  · simp [h]
  · rw [if_neg h] at hid
    exact absurd hid h

/-- `collideMissile` only flips `isActive` flags on the target list: the ids,
in order, are unchanged. -/
theorem collideMissile_ids (ts : List EnemyTarget) (m : DefenseMissile) :
    ((collideMissile ts m).1).map EnemyTarget.id = ts.map EnemyTarget.id := by
  unfold collideMissile
  by_cases h1 : m.isActive = false
  · rw [if_pos h1]
  · rw [if_neg h1]
    cases hl : lockTarget ts m.target with
    | none => rfl
    | some t0 =>
      dsimp only
      split_ifs with h2 h3
      · rfl
      · exact markTarget_ids t0.id ts
      · rfl

/-- The whole collision pass preserves the target ids, in order. -/
theorem collisionPass_ids (ts : List EnemyTarget) (ms : List DefenseMissile) :
    ((collisionPass ts ms).1).map EnemyTarget.id = ts.map EnemyTarget.id := by
  induction ms generalizing ts with
  | nil => rfl
  | cons m rest ih =>
    show ((collisionPass (collideMissile ts m).1 rest).1).map EnemyTarget.id = _
    rw [ih, collideMissile_ids]

/-- A reference that does not lock still does not lock against any target
list with the same ids. -/
theorem lockTarget_none_of_ids (ts ts2 : List EnemyTarget)
    (hids : ts2.map EnemyTarget.id = ts.map EnemyTarget.id) (r : Option Nat)
    (hn : lockTarget ts r = none) : lockTarget ts2 r = none := by
  cases r with
  | none => rfl
  | some i =>
    unfold lockTarget at hn ⊢
    rw [List.find?_eq_none] at hn ⊢
    intro a ha
    have : a.id ∈ ts.map EnemyTarget.id := by
      rw [← hids]
      exact List.mem_map_of_mem EnemyTarget.id ha
    obtain ⟨b, hb, hba⟩ := List.mem_map.mp this
    have hbne := hn b hb
    simp only [beq_iff_eq] at hbne ⊢
    rw [← hba]
    exact hbne

/-- A missile whose reference does not lock is returned unchanged by
`collideMissile`. -/
theorem collideMissile_of_none (ts : List EnemyTarget) (m : DefenseMissile)
    (hl : lockTarget ts m.target = none) : collideMissile ts m = (ts, m) := by
  unfold collideMissile
  by_cases h1 : m.isActive = false
  · rw [if_pos h1]
  · rw [if_neg h1, hl]

/-- A missile whose reference does not lock passes through the whole
collision pass unchanged (in particular it is never deactivated there). -/
theorem collisionPass_invalid_unchanged (ts : List EnemyTarget)
    (ms : List DefenseMissile) (m : DefenseMissile) (hm : m ∈ ms)
    (hl : lockTarget ts m.target = none) : m ∈ (collisionPass ts ms).2 := by
  induction ms generalizing ts with
  | nil => cases hm
  | cons m0 rest ih =>
    have hshape : (collisionPass ts (m0 :: rest)).2 =
        (collideMissile ts m0).2 :: (collisionPass (collideMissile ts m0).1 rest).2 := rfl
    rw [hshape]
    rcases List.mem_cons.mp hm with rfl | hmem
    · rw [collideMissile_of_none ts m hl]
      exact List.mem_cons_self m _
    · exact List.mem_cons_of_mem _
        (ih (collideMissile ts m0).1 hmem
          (lockTarget_none_of_ids ts (collideMissile ts m0).1 (collideMissile_ids ts m0)
            m.target hl))

/-- Claim C10: a missile whose target reference no longer locks is never
deactivated by the collision pass of any tick: its update leaves it inactive
exactly when the resulting position leaves the field bounds, and when the
position stays in bounds the missile survives the whole tick — collision
pass and compaction included — as its updated self. -/
theorem invalid_ref_only_bounds (w : World) (dt : ℝ) (m : DefenseMissile)
    (hm : m ∈ w.defenseMissiles) (hact : m.isActive = true)
    (hlost : lockTarget (w.enemyTargets.map (fun t => t.update dt)) m.target = none) :
    (((m.update dt (w.enemyTargets.map (fun t => t.update dt))).isActive = false) ↔
      ((m.update dt (w.enemyTargets.map (fun t => t.update dt))).x < 0 ∨
        (m.update dt (w.enemyTargets.map (fun t => t.update dt))).x > SCREEN_WIDTH ∨
        (m.update dt (w.enemyTargets.map (fun t => t.update dt))).y < 0 ∨
        (m.update dt (w.enemyTargets.map (fun t => t.update dt))).y > SCREEN_HEIGHT)) ∧
    ((m.update dt (w.enemyTargets.map (fun t => t.update dt))).isActive = true →
      m.update dt (w.enemyTargets.map (fun t => t.update dt)) ∈
        (updateEntities w dt).defenseMissiles) := by
  constructor
  · exact m.update_bounds_iff (w.enemyTargets.map (fun t => t.update dt)) dt hact
  · intro hup
    have htg : (m.update dt (w.enemyTargets.map (fun t => t.update dt))).target = m.target := by
      unfold DefenseMissile.update
      rw [DefenseMissile.move_target,
        m.guide_of_none (w.enemyTargets.map (fun t => t.update dt)) hlost]
    have hmem1 : m.update dt (w.enemyTargets.map (fun t => t.update dt)) ∈
        w.defenseMissiles.map (fun u => u.update dt (w.enemyTargets.map (fun t => t.update dt))) :=
      List.mem_map_of_mem _ hm
    have hmem2 := collisionPass_invalid_unchanged
      (w.enemyTargets.map (fun t => t.update dt))
      (w.defenseMissiles.map (fun u => u.update dt (w.enemyTargets.map (fun t => t.update dt))))
      (m.update dt (w.enemyTargets.map (fun t => t.update dt))) hmem1 (htg ▸ hlost)
    exact List.mem_filter.mpr ⟨hmem2, by rw [hup]⟩

/-- A world with one target (id 0) and the dangling missile `mGhost`. -/
def wGhost : World := { enemyTargets := [tStill], defenseMissiles := [mGhost] }

/-- Witness for C10: `mGhost` (reference id 5, never matched) ends the tick
in bounds, stays active, and survives collision pass and compaction. -/
theorem invalid_ref_only_bounds_w :
    (mGhost.update 1 (wGhost.enemyTargets.map (fun t => t.update 1))).isActive = true ∧
    mGhost.update 1 (wGhost.enemyTargets.map (fun t => t.update 1)) ∈
      (updateEntities wGhost 1).defenseMissiles := by
  have hup : (mGhost.update 1 (wGhost.enemyTargets.map (fun t => t.update 1))).isActive
      = true := by
    have hg : mGhost.guide (wGhost.enemyTargets.map (fun t => t.update 1)) = mGhost :=
      mGhost.guide_of_none _ rfl
    show ((mGhost.guide (wGhost.enemyTargets.map (fun t => t.update 1))).move 1).isActive = true
    rw [hg, DefenseMissile.move_isActive]
    norm_num [mGhost, SCREEN_WIDTH, SCREEN_HEIGHT]
  refine ⟨hup, ?_⟩
  exact (invalid_ref_only_bounds wGhost 1 mGhost (by simp [wGhost]) rfl rfl).2 hup

/-- The scan of `detectionTask` returns the first in-range target. -/
theorem detectedTarget_append (pre : List EnemyTarget) (t : EnemyTarget)
    (post : List EnemyTarget)
    (hfar : ∀ u ∈ pre,
      500 < Real.sqrt ((u.x - SCREEN_WIDTH) * (u.x - SCREEN_WIDTH) +
        (u.y - SCREEN_HEIGHT / 2) * (u.y - SCREEN_HEIGHT / 2)))
    (hnear : Real.sqrt ((t.x - SCREEN_WIDTH) * (t.x - SCREEN_WIDTH) +
        (t.y - SCREEN_HEIGHT / 2) * (t.y - SCREEN_HEIGHT / 2)) ≤ 500) :
    detectedTarget (pre ++ t :: post) = some t := by
  induction pre with
  | nil =>
    show detectedTarget (t :: post) = some t
    unfold detectedTarget
    dsimp only
    rw [if_pos hnear]
  | cons u rest ih =>
    show detectedTarget (u :: (rest ++ t :: post)) = some t
    unfold detectedTarget
    dsimp only
    rw [if_neg (not_le.mpr (hfar u (List.mem_cons_self u rest)))]
    exact ih (fun v hv => hfar v (List.mem_cons_of_mem u hv))

/-- Claim C3: one `detectionTask` call measures the distance from the sensor
`(SCREEN_WIDTH, SCREEN_HEIGHT / 2)` = (800, 300) to each (active) target in
collection order; when the targets before `t` are out of the 500-unit radius
and `t` is within it, exactly one missile is launched — at `t` — and the
scan stops, so even with several targets in range exactly one missile is
appended per call. -/
theorem detect_engages_first (w : World) (pre : List EnemyTarget) (t : EnemyTarget)
    (post : List EnemyTarget)
    (hall : ∀ u ∈ w.enemyTargets, u.isActive = true)
    (hsplit : w.enemyTargets = pre ++ t :: post)
    (hfar : ∀ u ∈ pre,
      500 < Real.sqrt ((u.x - SCREEN_WIDTH) * (u.x - SCREEN_WIDTH) +
        (u.y - SCREEN_HEIGHT / 2) * (u.y - SCREEN_HEIGHT / 2)))
    (hnear : Real.sqrt ((t.x - SCREEN_WIDTH) * (t.x - SCREEN_WIDTH) +
        (t.y - SCREEN_HEIGHT / 2) * (t.y - SCREEN_HEIGHT / 2)) ≤ 500) :
    detectionTask w = launchMissile w SCREEN_WIDTH (SCREEN_HEIGHT / 2) t.id ∧
    (detectionTask w).enemyTargets = w.enemyTargets ∧
    (detectionTask w).defenseMissiles =
      w.defenseMissiles ++
        [mkDefenseMissile SCREEN_WIDTH (SCREEN_HEIGHT / 2) w.enemyTargets t.id 200] := by
  have hd : detectedTarget w.enemyTargets = some t := by
    rw [hsplit]
    exact detectedTarget_append pre t post hfar hnear
  have h1 : detectionTask w = launchMissile w SCREEN_WIDTH (SCREEN_HEIGHT / 2) t.id := by
    unfold detectionTask
    rw [hd]
  exact ⟨h1, by rw [h1]; rfl, by rw [h1]; rfl⟩

/-- A target 100 units from the sensor. -/
def tNearA : EnemyTarget :=
  { x := 700, y := 300, speedX := 50, speedY := 0, isActive := true, id := 0 }

/-- A second target 200 units from the sensor, also in range. -/
def tNearB : EnemyTarget :=
  { x := 600, y := 300, speedX := 60, speedY := 0, isActive := true, id := 1 }

/-- A world with two targets simultaneously inside the detection radius. -/
def wDetect : World := { enemyTargets := [tNearA, tNearB], defenseMissiles := [] }

/-- Witness for C3: with both `tNearA` and `tNearB` in range, one call
launches exactly one missile, at the first target `tNearA` (id 0). -/
theorem detect_engages_first_w :
    detectionTask wDetect = launchMissile wDetect SCREEN_WIDTH (SCREEN_HEIGHT / 2) 0 ∧
    (detectionTask wDetect).defenseMissiles.length = 1 := by
  have h := detect_engages_first wDetect [] tNearA [tNearB]
    (by
      intro u hu
      have hu2 : u = tNearA ∨ u = tNearB := by simpa [wDetect] using hu
      rcases hu2 with rfl | rfl <;> rfl)
    rfl
    (fun u hu => absurd hu (List.not_mem_nil u))
    (by
      refine Real.sqrt_le_iff.mpr ⟨by norm_num, ?_⟩
      norm_num [tNearA, SCREEN_WIDTH, SCREEN_HEIGHT])
  refine ⟨h.1, ?_⟩
  rw [h.2.2]
  rfl

/-- `collideMissile` on an active missile locking an active target within
squared distance 225: both are deactivated. -/
theorem collideMissile_hit (ts : List EnemyTarget) (m : DefenseMissile) (t : EnemyTarget)
    (hma : m.isActive = true) (hl : lockTarget ts m.target = some t)
    (hta : t.isActive = true)
    (hd : (m.x - t.x) * (m.x - t.x) + (m.y - t.y) * (m.y - t.y) < 225) :
    collideMissile ts m = (markTarget t.id ts, { m with isActive := false }) := by
  unfold collideMissile
  rw [if_neg (by simp [hma]), hl]
  dsimp only
  rw [if_neg (by simp [hta]), if_pos hd]

/-- The collision loop over an appended missile list runs the first part,
then the second from the evolved target state. -/
theorem collisionPass_append (ts : List EnemyTarget) (ms1 ms2 : List DefenseMissile) :
    collisionPass ts (ms1 ++ ms2) =
      ((collisionPass (collisionPass ts ms1).1 ms2).1,
        (collisionPass ts ms1).2 ++ (collisionPass (collisionPass ts ms1).1 ms2).2) := by
  induction ms1 generalizing ts with
  | nil => rfl
  | cons m rest ih =>
    show ((collisionPass (collideMissile ts m).1 (rest ++ ms2)).1,
        (collideMissile ts m).2 :: (collisionPass (collideMissile ts m).1 (rest ++ ms2)).2) = _
    rw [ih (collideMissile ts m).1]
    rfl

/-- `collideMissile` never reactivates a dead target id. -/
theorem collideMissile_dead_mono (ts : List EnemyTarget) (m : DefenseMissile) (k : Nat)
    (h : ∀ u ∈ ts, u.id = k → u.isActive = false) :
    ∀ u ∈ (collideMissile ts m).1, u.id = k → u.isActive = false := by
  unfold collideMissile
  by_cases h1 : m.isActive = false
  · rw [if_pos h1]
    exact h
  · rw [if_neg h1]
    cases hl : lockTarget ts m.target with
    | none => exact h
    | some t0 =>
      dsimp only
      split_ifs with h2 h3
      · exact h
      · intro u hu hid
        unfold markTarget at hu
        obtain ⟨v, hv, rfl⟩ := List.mem_map.mp hu
        by_cases hvk : v.id = t0.id
        · simp [hvk]
        · rw [if_neg hvk] at hid ⊢
          exact h v hv hid
      · exact h

/-- The whole collision pass never reactivates a dead target id. -/
theorem collisionPass_dead_mono (ts : List EnemyTarget) (ms : List DefenseMissile) (k : Nat)
    (h : ∀ u ∈ ts, u.id = k → u.isActive = false) :
    ∀ u ∈ (collisionPass ts ms).1, u.id = k → u.isActive = false := by
  induction ms generalizing ts with
  | nil => exact h
  | cons m rest ih =>
    show ∀ u ∈ (collisionPass (collideMissile ts m).1 rest).1, _
    exact ih (collideMissile ts m).1 (collideMissile_dead_mono ts m k h)

/-- Claim C2: in the collision pass of one tick, a missile that arrives at
its evaluation point active, locking an active target `t`, with squared
Euclidean distance below 225, ends the pass deactivated together with every
target entry carrying `t`'s id; the same tick's compaction then removes
both: the missile entry disappears from the compacted missile list (the
survivors around it are kept in order) and no target with `t`'s id remains. -/
theorem collision_removes_pair (w : World) (dt : ℝ) (pre post : List DefenseMissile)
    (m : DefenseMissile) (t : EnemyTarget)
    (hsplit : w.defenseMissiles.map
        (fun u => u.update dt (w.enemyTargets.map (fun s => s.update dt))) =
      pre ++ m :: post)
    (hma : m.isActive = true)
    (hl : lockTarget
        (collisionPass (w.enemyTargets.map (fun s => s.update dt)) pre).1 m.target = some t)
    (hta : t.isActive = true)
    (hd : (m.x - t.x) * (m.x - t.x) + (m.y - t.y) * (m.y - t.y) < 225) :
    (∀ u ∈ (collisionPass (w.enemyTargets.map (fun s => s.update dt))
        (w.defenseMissiles.map
          (fun u => u.update dt (w.enemyTargets.map (fun s => s.update dt))))).1,
      u.id = t.id → u.isActive = false) ∧
    (∃ pre2 post2,
      (collisionPass (w.enemyTargets.map (fun s => s.update dt))
        (w.defenseMissiles.map
          (fun u => u.update dt (w.enemyTargets.map (fun s => s.update dt))))).2 =
        pre2 ++ { m with isActive := false } :: post2 ∧
      (updateEntities w dt).defenseMissiles =
        pre2.filter (fun u => u.isActive) ++ post2.filter (fun u => u.isActive)) ∧
    (∀ u ∈ (updateEntities w dt).enemyTargets, u.id ≠ t.id) := by
  have hhit := collideMissile_hit
    (collisionPass (w.enemyTargets.map (fun s => s.update dt)) pre).1 m t hma hl hta hd
  have hcons : collisionPass
      (collisionPass (w.enemyTargets.map (fun s => s.update dt)) pre).1 (m :: post) =
      ((collisionPass (collideMissile
          (collisionPass (w.enemyTargets.map (fun s => s.update dt)) pre).1 m).1 post).1,
        (collideMissile
          (collisionPass (w.enemyTargets.map (fun s => s.update dt)) pre).1 m).2 ::
          (collisionPass (collideMissile
            (collisionPass (w.enemyTargets.map (fun s => s.update dt)) pre).1 m).1 post).2) :=
    rfl
  rw [hhit] at hcons
  dsimp only at hcons
  have hfull := collisionPass_append
    (w.enemyTargets.map (fun s => s.update dt)) pre (m :: post)
  rw [hcons] at hfull
  dsimp only at hfull
  have hUE1 : (updateEntities w dt).enemyTargets =
      ((collisionPass (w.enemyTargets.map (fun s => s.update dt))
        (w.defenseMissiles.map
          (fun u => u.update dt (w.enemyTargets.map (fun s => s.update dt))))).1).filter
        (fun u => u.isActive) := rfl
  have hUE2 : (updateEntities w dt).defenseMissiles =
      ((collisionPass (w.enemyTargets.map (fun s => s.update dt))
        (w.defenseMissiles.map
          (fun u => u.update dt (w.enemyTargets.map (fun s => s.update dt))))).2).filter
        (fun u => u.isActive) := rfl
  have hdead : ∀ u ∈ (collisionPass (markTarget t.id
      (collisionPass (w.enemyTargets.map (fun s => s.update dt)) pre).1) post).1,
      u.id = t.id → u.isActive = false :=
    collisionPass_dead_mono _ post t.id
      (markTarget_dead t.id (collisionPass (w.enemyTargets.map (fun s => s.update dt)) pre).1)
  refine ⟨?_, ?_, ?_⟩
  · rw [hsplit, hfull]
    exact hdead
  · refine ⟨(collisionPass (w.enemyTargets.map (fun s => s.update dt)) pre).2,
      (collisionPass (markTarget t.id
        (collisionPass (w.enemyTargets.map (fun s => s.update dt)) pre).1) post).2, ?_, ?_⟩
    · rw [hsplit, hfull]
    · rw [hUE2, hsplit, hfull]
      simp [List.filter_append, List.filter_cons]
  · intro u hu
    rw [hUE1, hsplit, hfull] at hu
    obtain ⟨hmem, hact⟩ := List.mem_filter.mp hu
    intro hid
    have hdeadu := hdead u hmem hid
    rw [hdeadu] at hact
    cases hact

/-- A missile sitting exactly on `tStill`, targeting it, with no velocity. -/
def mStrike : DefenseMissile :=
  { x := 100, y := 100, speed := 200, velocityX := 0, velocityY := 0,
    isActive := true, target := some 0 }

/-- A world where `mStrike` collides with `tStill` this tick. -/
def wCollide : World := { enemyTargets := [tStill], defenseMissiles := [mStrike] }

/-- Witness for C2: in `wCollide` (missile on top of its target, squared
distance 0 < 225), after the tick's collision pass the missile entry is
deactivated and every copy of target id 0 is dead, and compaction leaves
collections without them. -/
theorem collision_removes_pair_w :
    (∀ u ∈ (collisionPass (wCollide.enemyTargets.map (fun s => s.update 1))
        (wCollide.defenseMissiles.map
          (fun u => u.update 1 (wCollide.enemyTargets.map (fun s => s.update 1))))).1,
      u.id = tStill.id → u.isActive = false) ∧
    (∃ pre2 post2,
      (collisionPass (wCollide.enemyTargets.map (fun s => s.update 1))
        (wCollide.defenseMissiles.map
          (fun u => u.update 1 (wCollide.enemyTargets.map (fun s => s.update 1))))).2 =
        pre2 ++ { mStrike with isActive := false } :: post2 ∧
      (updateEntities wCollide 1).defenseMissiles =
        pre2.filter (fun u => u.isActive) ++ post2.filter (fun u => u.isActive)) ∧
    (∀ u ∈ (updateEntities wCollide 1).enemyTargets, u.id ≠ tStill.id) := by
  have h_t : tStill.update 1 = tStill := by
    simp only [EnemyTarget.update, tStill]
    norm_num [SCREEN_WIDTH, SCREEN_HEIGHT]
  have hc : ¬(Real.sqrt ((tStill.x - mStrike.x) * (tStill.x - mStrike.x) +
      (tStill.y - mStrike.y) * (tStill.y - mStrike.y)) > 0.01) := by
    norm_num [tStill, mStrike, Real.sqrt_zero]
  have hv : mStrike.updateVelocity [tStill] = mStrike := by
    unfold DefenseMissile.updateVelocity
    rw [show lockTarget [tStill] mStrike.target = some tStill from rfl]
    dsimp only
    rw [if_neg hc]
  have h_m : mStrike.update 1 [tStill] = mStrike := by
    show (mStrike.guide [tStill]).move 1 = mStrike
    rw [mStrike.guide_of_active [tStill] tStill rfl rfl, hv]
    unfold DefenseMissile.move
    simp only [mStrike]
    norm_num [SCREEN_WIDTH, SCREEN_HEIGHT]
  have hts1 : wCollide.enemyTargets.map (fun s => s.update 1) = [tStill] := by
    show [tStill.update 1] = [tStill]
    rw [h_t]
  have hsp : wCollide.defenseMissiles.map
      (fun u => u.update 1 (wCollide.enemyTargets.map (fun s => s.update 1))) =
      [] ++ mStrike :: [] := by
    show [mStrike.update 1 (wCollide.enemyTargets.map (fun s => s.update 1))] = [mStrike]
    rw [hts1, h_m]
  have hl : lockTarget
      (collisionPass (wCollide.enemyTargets.map (fun s => s.update 1)) []).1
      mStrike.target = some tStill := by
    show lockTarget (wCollide.enemyTargets.map (fun s => s.update 1)) mStrike.target =
      some tStill
    rw [hts1]
    rfl
  have hd : (mStrike.x - tStill.x) * (mStrike.x - tStill.x) +
      (mStrike.y - tStill.y) * (mStrike.y - tStill.y) < 225 := by
    norm_num [mStrike, tStill]
  exact collision_removes_pair wCollide 1 [] [] mStrike tStill hsp rfl hl rfl hd

/-- √10000 = 100. -/
theorem sqrt_ten_thousand : Real.sqrt 10000 = 100 := by
  rw [show (10000 : ℝ) = 100 ^ 2 by norm_num]
  exact Real.sqrt_sq (by norm_num)

/-- `updateVelocity` when the target locks at distance above the epsilon:
the velocity becomes the unit direction to the target scaled by the speed. -/
theorem updateVelocity_of_far (m : DefenseMissile) (ts : List EnemyTarget)
    (t : EnemyTarget) (hl : lockTarget ts m.target = some t)
    (hgt : 0.01 < Real.sqrt ((t.x - m.x) * (t.x - m.x) + (t.y - m.y) * (t.y - m.y))) :
    m.updateVelocity ts =
      { m with
        velocityX := (t.x - m.x) /
          Real.sqrt ((t.x - m.x) * (t.x - m.x) + (t.y - m.y) * (t.y - m.y)) * m.speed
        velocityY := (t.y - m.y) /
          Real.sqrt ((t.x - m.x) * (t.x - m.x) + (t.y - m.y) * (t.y - m.y)) * m.speed } := by
  unfold DefenseMissile.updateVelocity
  rw [hl]
  dsimp only
  rw [if_pos hgt]

/-- The missile of the spec's homing scenario: launched from (0, 100) at
speed 200 against `tStill` at (100, 100); its constructor already points it
at the target, velocity (200, 0). -/
def mHoming : DefenseMissile := mkDefenseMissile 0 100 [tStill] 0 200

/-- The evaluated form of `mHoming`. -/
def mHomingV : DefenseMissile :=
  { x := 0, y := 100, speed := 200, velocityX := 200, velocityY := 0,
    isActive := true, target := some 0 }

/-- The pre-constructor state of the scenario missile (the field values the
`DefenseMissile` constructor sets before it calls `updateVelocity`). -/
def mBase : DefenseMissile :=
  { x := 0, y := 100, speed := 200, velocityX := 0, velocityY := 0,
    isActive := true, target := some 0 }

/-- The scenario missile, evaluated: velocity (100, 0)/100 × 200 = (200, 0). -/
theorem mHoming_eq : mHoming = mHomingV := by
  have hgt2 : (0.01 : ℝ) < Real.sqrt
      ((tStill.x - mBase.x) * (tStill.x - mBase.x) +
        (tStill.y - mBase.y) * (tStill.y - mBase.y)) := by
    rw [show (tStill.x - mBase.x) * (tStill.x - mBase.x) +
        (tStill.y - mBase.y) * (tStill.y - mBase.y) = 10000 by norm_num [tStill, mBase]]
    rw [sqrt_ten_thousand]
    norm_num
  have hbase : mHoming = mBase.updateVelocity [tStill] := rfl
  rw [hbase, updateVelocity_of_far mBase [tStill] tStill rfl hgt2]
  norm_num [tStill, mBase, mHomingV, sqrt_ten_thousand]

/-- One update of the scenario missile is a pure move: the velocity
recomputation returns the same velocity (200, 0). -/
theorem mHoming_update : mHoming.update 1 [tStill] = mHomingV.move 1 := by
  have hgt2v : (0.01 : ℝ) < Real.sqrt
      ((tStill.x - mHomingV.x) * (tStill.x - mHomingV.x) +
        (tStill.y - mHomingV.y) * (tStill.y - mHomingV.y)) := by
    rw [show (tStill.x - mHomingV.x) * (tStill.x - mHomingV.x) +
        (tStill.y - mHomingV.y) * (tStill.y - mHomingV.y) = 10000 by
      norm_num [tStill, mHomingV]]
    rw [sqrt_ten_thousand]
    norm_num
  have huv : mHomingV.updateVelocity [tStill] = mHomingV := by
    rw [updateVelocity_of_far mHomingV [tStill] tStill rfl hgt2v]
    norm_num [mHomingV, tStill, sqrt_ten_thousand]
  rw [mHoming_eq]
  show (mHomingV.guide [tStill]).move 1 = mHomingV.move 1
  rw [mHomingV.guide_of_active [tStill] tStill rfl rfl, huv]

/-- Counterexample to C1 as stated: the missile from (0, 100) at speed 200,
target `tStill` at (100, 100), ends one dt = 1 update at x = 200 — its
position (200, 100) is not (100, 100). -/
theorem homing_one_tick_cex :
    (mHoming.update 1 [tStill]).x = 200 ∧
    ¬((mHoming.update 1 [tStill]).x = 100 ∧ (mHoming.update 1 [tStill]).y = 100) := by
  have hx : (mHoming.update 1 [tStill]).x = 200 := by
    rw [mHoming_update, DefenseMissile.move_x]
    norm_num [mHomingV]
  refine ⟨hx, ?_⟩
  intro hcon
  rw [hx] at hcon
  exact absurd hcon.1 (by norm_num)

/-- Claim C1 (amended): for the stationary target at (100, 100) and the
missile at (0, 100) with speed 200 and a valid, active target reference, one
update with dt = 1 gives velocity exactly (200, 0) — direction purely +x
with magnitude exactly the speed — and position exactly (200, 100) =
start + velocity × dt (the missile overshoots the target this tick). -/
theorem homing_one_tick :
    (mHoming.update 1 [tStill]).velocityX = 200 ∧
    (mHoming.update 1 [tStill]).velocityY = 0 ∧
    (mHoming.update 1 [tStill]).speed = 200 ∧
    (mHoming.update 1 [tStill]).x = 200 ∧
    (mHoming.update 1 [tStill]).y = 100 := by
  refine ⟨?_, ?_, ?_, ?_, ?_⟩
  · rw [mHoming_update, DefenseMissile.move_velocityX]
    rfl
  · rw [mHoming_update, DefenseMissile.move_velocityY]
    rfl
  · rw [mHoming_update, DefenseMissile.move_speed]
    rfl
  · rw [mHoming_update, DefenseMissile.move_x]
    norm_num [mHomingV]
  · rw [mHoming_update, DefenseMissile.move_y]
    norm_num [mHomingV]

end

end MissileSim
